import Mathlib

/-!
Shallow embedding of `src/blockchain.js` (class `Blockchain`) from the
star-notary repository, together with theorems settling the frozen claims
about its specification.

Modelling conventions:
* JavaScript `undefined`/`null` values are embedded as `Option.none`.
* The external collaborators (`crypto-js` SHA256 and
  `bitcoinjs-message.verify`) are parameters of the model, gathered in `Env`.
* The wall clock is passed explicitly, in seconds since epoch (the source
  reads `new Date().getTime().toString().slice(0, -3)`, i.e. the millisecond
  clock truncated to seconds; we model each method call as acting at one
  clock reading `now`, in seconds).
* A settled/unsettled JavaScript `Promise` is embedded as `SettleOutcome`:
  `resolved v` (resolve with `v`, where `none` is `resolve()`/`resolve(null)`
  i.e. resolving with no value), `rejected e` (reject, where `none` is
  `reject()` with no reason), and `pending` for a promise on which no code
  path ever calls `resolve` or `reject`, so it never settles.
-/

namespace StarNotary

/-- External collaborators consumed by the ledger: the 256-bit hash function
(`SHA256(s).toString()` from `crypto-js`) and the signature verifier
(`bitcoinMessage.verify(message, address, signature)` from
`bitcoinjs-message`), which per the collaborator contract returns a boolean
for well-formed inputs. -/
structure Env where
  hashFn : String → String
  verify : String → String → String → Bool

/-- A JavaScript error value carried by a rejected promise. -/
inductive JsError where
  | referenceError (ident : String)
  | typeError (msg : String)
  deriving Repr, DecidableEq

/-- Outcome observed by a caller awaiting one of the class methods, all of
which return a `Promise`: the promise resolves with a value (possibly
`undefined`/`null`, embedded as `none`), rejects with a reason (possibly no
reason at all, embedded as `none`), or never settles (`pending`): no code
path in the method ever calls `resolve` or `reject`. -/
inductive SettleOutcome (α : Type) where
  | resolved (v : Option α)
  | rejected (reason : Option JsError)
  | pending
  deriving Repr, DecidableEq

/-- A sealed block as stored in `this.chain`. Modelled from the spec: the
file `block.js` that defines the `Block` class is not part of `src/`; per the
spec (§3, §4.1) a Block stores the caller payload (`body`), the append-time
clock reading (`time`), its position (`height`), the predecessor hash
(`previousBlockHash`, possibly `undefined`, hence `Option`) and its own
`hash`. -/
structure Block where
  body : String
  time : String
  height : Int
  previousBlockHash : Option String
  hash : String
  deriving Repr, DecidableEq

/-- Ledger state: `this.chain` (the array of blocks) and `this.height` (the
cached height counter, `-1` before the genesis block lands). -/
structure Chain where
  chain : List Block
  height : Int
  deriving Repr, DecidableEq

/-- JavaScript string coercion of a possibly-`undefined` string value, as it
occurs inside string concatenation: `undefined` prints as `"undefined"`. -/
def jsStr : Option String → String
  | none => "undefined"
  | some s => s

/-- Read a list of decimal digits, most significant first, into a natural
number. -/
def digitsToNat (acc : Nat) : List Char → Nat
  | [] => acc
  | c :: cs => digitsToNat (acc * 10 + (c.toNat - 48)) cs

/-- Split a character list at every occurrence of `sep`. -/
def splitChars (sep : Char) : List Char → List (List Char)
  | [] => [[]]
  | c :: cs =>
    let rest := splitChars sep cs
    if c = sep then [] :: rest
    else (c :: rest.headD []) :: rest.tail

/-- JavaScript `s.split(sep)` for a one-character separator. -/
def jsSplit (sep : Char) (s : String) : List String :=
  (splitChars sep s.toList).map String.mk

/-- JavaScript `parseInt` on a string: parse an optional sign followed by the
longest decimal-digit prefix; no digits gives `NaN`, embedded as `none`. -/
def jsParseInt (s : String) : Option Int :=
  match s.toList with
  | '-' :: rest =>
    let digits := rest.takeWhile Char.isDigit
    if digits.isEmpty then none
    else some (-((digitsToNat 0 digits : Nat) : Int))
  | cs =>
    let digits := cs.takeWhile Char.isDigit
    if digits.isEmpty then none
    else some (((digitsToNat 0 digits : Nat) : Int))

/-- Modelled from the spec: `block.js` is not in `src/`. The Block
constructor receives the payload object (always of the shape
`(data : someString)` in `blockchain.js`: the genesis marker or the signed
message) and stores a serialization of it in `body`; the spec (§4.1) fixes
only that the serialization is unambiguous, so we fix one. No claim depends
on the concrete serialization. -/
def encodeData (s : String) : String := "data:" ++ s

/-- Observable ledger state immediately after `new Blockchain()` returns.
The constructor sets `this.chain = []` and `this.height = -1`, then calls
`this.initializeChain()` WITHOUT awaiting it; inside, `_addBlock` suspends at
its first `await` (`await self.getChainHeight()`) before mutating `chain` or
`height`, and the constructor returns. Synchronous callers therefore observe
an empty chain of height `-1`. -/
def newBlockchainSync : Chain := { chain := [], height := -1 }

/-- `getChainHeight()`: resolves with `this.height`. -/
def getChainHeight (c : Chain) : Int := c.height

/-- `getBlockByHeight(height)`: resolves with
`self.chain.filter(p => p.height === height)[0]` when that element exists,
and with `null` (embedded as `none`) otherwise. -/
def getBlockByHeight (c : Chain) (height : Int) : Option Block :=
  (c.chain.filter (fun p => p.height == height)).head?

/-- `_addBlock(block)`: stamps `block.time` with the clock, reads the current
height, sets `block.height = currentHeight + 1`, increments `this.height`,
assigns `block.previousBlockHash`, computes
`block.hash = SHA256(block.height + block.body + block.time + block.previousBlockHash).toString()`
and pushes the block. Returns the new state and the pushed block.

Faithfulness note on `previousBlockHash`: the source line is
`block.previousBlockHash = await self.getBlockByHeight(currentHeight).hash;`
— the property `.hash` is read off the `Promise` object returned by
`getBlockByHeight` (not off the resolved block), which is `undefined`, and
`await undefined` is `undefined`. The field is therefore always `undefined`
(`none`), and it contributes the text `"undefined"` to the hash input. -/
def _addBlock (env : Env) (now : Int) (c : Chain) (body : String) :
    Chain × Block :=
  let time := toString now
  let currentHeight := getChainHeight c
  let height := currentHeight + 1
  let previousBlockHash : Option String := none
  let hash := env.hashFn (toString height ++ body ++ time ++ jsStr previousBlockHash)
  let b : Block :=
    { body := body, time := time, height := height,
      previousBlockHash := previousBlockHash, hash := hash }
  ({ chain := c.chain ++ [b], height := currentHeight + 1 }, b)

/-- `initializeChain()`: if `this.height === -1`, append a block with the
fixed genesis payload `(data : "Genesis Block")` via `_addBlock`; otherwise
do nothing. -/
def initializeChain (env : Env) (now : Int) (c : Chain) : Chain :=
  if c.height = -1 then (_addBlock env now c (encodeData "Genesis Block")).1
  else c

/-- Ledger state once the constructor-triggered initialization has completed
(the genesis append's microtasks have run). -/
def initializedChain (env : Env) (now : Int) : Chain :=
  initializeChain env now newBlockchainSync

/-- `requestMessageOwnershipVerification(address)`: resolves with the
template string `address:nowSeconds:starRegistry`. -/
def requestMessageOwnershipVerification (address : String) (now : Int) :
    String :=
  address ++ ":" ++ toString now ++ ":starRegistry"

/-- The challenge-message formula as the spec states it:
`message = address || ":" || now_seconds || ":" || fixed_tag` with the fixed
tag `starRegistry`. -/
def spec_issue_challenge (address : String) (nowSeconds : Int) : String :=
  address ++ ":" ++ toString nowSeconds ++ ":starRegistry"

/-- Step 1 of `submitStar`: `parseInt(message.split(':')[1])`. A message with
fewer than two `:`-separated parts yields `NaN` (`none`). -/
def messageTime (message : String) : Option Int :=
  jsParseInt ((jsSplit ':' message).getD 1 "")

/-- Result of one `submitStar` call: the ledger state when the call's
microtasks have run, the settlement the caller observes, and whether the
signature verifier was invoked during the call. -/
structure SubmitResult where
  newChain : Chain
  settled : SettleOutcome Block
  verifierInvoked : Bool
  deriving Repr, DecidableEq

/-- `submitStar(address, message, signature, star)`: parses the embedded
time, reads the clock, and — when the elapsed time exceeds `60 * 5` seconds —
calls `reject()` with no reason. That `if` statement does not return, so
execution continues regardless: `bitcoinMessage.verify(message, address,
signature)` is invoked and its boolean result is discarded, a block holding
`(data : message)` is appended via `_addBlock` (the `star` argument is never
used), and finally `resolve()` is called with no value, which is a no-op if
`reject()` already settled the promise. -/
def submitStar (env : Env) (now : Int) (c : Chain)
    (address message signature star : String) : SubmitResult :=
  let mt := messageTime message
  let currentTime := now
  let expired : Bool :=
    match mt with
    | some t => decide (currentTime - t > 60 * 5)
    | none => false
  let _ := env.verify message address signature
  let _ := star
  let added := _addBlock env now c (encodeData message)
  { newChain := added.1
    settled :=
      if expired then SettleOutcome.rejected none
      else SettleOutcome.resolved none
    verifierInvoked := true }

/-- The scan inside `getBlockByHash(hash)`: `for (i = 0; i < height + 1; i++)`
resolve with the first block whose `hash` matches. An iteration whose
`getBlockByHeight` resolves with `null` contributes nothing (reading
`block.hash` there would throw inside the `then` callback, rejecting only
that inner promise). -/
def hashScan (c : Chain) (hash : String) : Option Block :=
  (List.range (getChainHeight c + 1).toNat).findSome? fun i =>
    match getBlockByHeight c (Int.ofNat i) with
    | some block => if block.hash == hash then some block else none
    | none => none

/-- `getBlockByHash(hash)`: resolves with the first block of matching hash;
when no block matches, the loop finishes without any call to `resolve` or
`reject` — nothing in the method resolves `null` or rejects — so the returned
promise never settles (`pending`). -/
def getBlockByHash (c : Chain) (hash : String) : SettleOutcome Block :=
  match hashScan c hash with
  | some block => SettleOutcome.resolved (some block)
  | none => SettleOutcome.pending

/-- `getStarsByWalletAddress(address)`: the first statement of the promise
executor is `console.log('hash:', hash);`, but no identifier `hash` is in
scope there (the method binds only `address`, `self` and `stars`, and class
bodies are strict mode), so a `ReferenceError` is thrown synchronously inside
the executor and the promise rejects with it, for every ledger state and
every address; the scan below that line never runs. -/
def getStarsByWalletAddress (_c : Chain) (_address : String) :
    SettleOutcome (List String) :=
  SettleOutcome.rejected (some (JsError.referenceError "hash"))

/-- `validateChain()`: the executor is an `async` arrow function whose first
statement is `let chainLength = await this.getBlockHeight();`, but the class
has no method `getBlockHeight` (only `getChainHeight`), so a `TypeError` is
thrown; thrown inside an `async` executor it only rejects the executor's own
(unobserved) promise, and the outer promise is left unsettled. Independently,
no path in the method body ever calls `resolve` or `reject` (even the loop
and the logging at the end resolve nothing), so the returned promise never
settles on any input. -/
def validateChain (_c : Chain) : SettleOutcome (List Int) :=
  SettleOutcome.pending

/-- Claim C3's linkage condition at height `h`: the stored `previousBlockHash`
of the block at position `h` equals the stored `hash` of the block at
position `h - 1`; vacuously true when either position is unoccupied. -/
def linkIntact (c : Chain) (h : Nat) : Bool :=
  match c.chain.get? h, c.chain.get? (h - 1) with
  | some b, some b' => b.previousBlockHash == some b'.hash
  | _, _ => true

/-- Ledger states reachable through the public interface: the initialized
ledger (constructor plus completed genesis bootstrap), grown by any sequence
of `submitStar` calls. -/
inductive Reachable (env : Env) : Chain → Prop
  | init (now : Int) : Reachable env (initializedChain env now)
  | submit (c : Chain) (now : Int) (address message signature star : String) :
      Reachable env c →
      Reachable env (submitStar env now c address message signature star).newChain

/-- Structural invariant of reachable ledger states: the cached height is
non-negative and consistent with the array length, and every stored block's
`height` field equals its position in the array. -/
def WF (c : Chain) : Prop :=
  0 ≤ c.height ∧ c.chain.length = c.height.toNat + 1 ∧
    ∀ (i : Nat) (b : Block), c.chain.get? i = some b → b.height = (i : Int)

/-- Test environment: a concrete injective stand-in for SHA256 and a verifier
that accepts every signature. -/
def envT : Env :=
  { hashFn := fun s => "sha256:" ++ s, verify := fun _ _ _ => true }

/-- Test environment whose verifier rejects every signature (the
syntactically-valid-but-wrong-signature scenario). -/
def envF : Env :=
  { hashFn := fun s => "sha256:" ++ s, verify := fun _ _ _ => false }

/-- A freshly initialized ledger (genesis only), bootstrapped at clock 50. -/
def cInit : Chain := initializedChain envT 50

/-- A freshly initialized ledger under the rejecting verifier. -/
def cInitF : Chain := initializedChain envF 50

/-- A two-block ledger: genesis plus one submission accepted at clock 100
against the challenge issued at clock 100. -/
def cTwo : Chain :=
  (submitStar envT 100 cInit "addr1" "addr1:100:starRegistry" "sig1" "star1").newChain

/-- The head of a filtered list is its first match. -/
theorem head_filter {α : Type} (p : α → Bool) (l : List α) :
    (l.filter p).head? = l.find? p := by
  induction l with
  | nil => rfl
  | cons a t ih =>
    by_cases h : p a
    · simp [List.filter_cons, h]
    · simp [List.filter_cons, h, ih]

/-- On a list whose block at position `i` carries height `k + i`, searching
by height field is positional lookup. -/
theorem find_at (h : Int) :
    ∀ (l : List Block) (k : Int),
      (∀ (i : Nat) (b : Block), l.get? i = some b → b.height = k + i) →
      l.find? (fun b => b.height == h) =
        (if k ≤ h ∧ h < k + l.length then l.get? (h - k).toNat else none) := by
  intro l
  induction l with
  | nil =>
    intro k _
    simp
  | cons a t ih =>
    intro k hk
    have ha : a.height = k := by
      have h0 := hk 0 a rfl
      simpa using h0
    have htail : ∀ (i : Nat) (b : Block), t.get? i = some b →
        b.height = (k + 1) + i := by
      intro i b hb
      have hi := hk (i + 1) b (by simpa using hb)
      push_cast at hi ⊢
      omega
    by_cases hbeq : a.height = h
    · have hkh : k = h := by omega
      rw [List.find?_cons_of_pos _ (by simp [hbeq]),
        if_pos ⟨by omega, by simp only [List.length_cons]; push_cast; omega⟩]
      have hz : (h - k).toNat = 0 := by omega
      rw [hz]
      rfl
    · rw [List.find?_cons_of_neg _ (by simp [hbeq]), ih (k + 1) htail]
      by_cases hc : k + 1 ≤ h ∧ h < k + 1 + t.length
      · obtain ⟨hc1, hc2⟩ := hc
        rw [if_pos ⟨hc1, hc2⟩,
          if_pos ⟨by omega, by simp only [List.length_cons]; push_cast; omega⟩]
        have hs : (h - k).toNat = (h - (k + 1)).toNat + 1 := by omega
        rw [hs]
        rfl
      · rw [if_neg hc, if_neg ?hneg]
        case hneg =>
          intro hcon
          obtain ⟨hd1, hd2⟩ := hcon
          simp only [List.length_cons] at hd2
          push_cast at hd2
          exact hc ⟨by omega, by omega⟩

/-- `getBlockByHeight` on a well-formed ledger is positional lookup,
resolving with `null` exactly outside `[0, height]`. -/
theorem getBlockByHeight_wf (c : Chain) (hwf : WF c) (h : Int) :
    getBlockByHeight c h =
      (if 0 ≤ h ∧ h ≤ c.height then c.chain.get? h.toNat else none) := by
  obtain ⟨h0, hlen, hpos⟩ := hwf
  have hlen' : (c.chain.length : Int) = c.height + 1 := by
    rw [hlen]
    push_cast
    omega
  unfold getBlockByHeight
  rw [head_filter, find_at h c.chain 0 (by intro i b hb; simpa using hpos i b hb)]
  by_cases hc : 0 ≤ h ∧ h ≤ c.height
  · obtain ⟨hc1, hc2⟩ := hc
    rw [if_pos ⟨hc1, by omega⟩, if_pos ⟨hc1, hc2⟩]
    congr 1
    omega
  · rw [if_neg ?hneg2, if_neg hc]
    case hneg2 =>
      intro hcon
      obtain ⟨hd1, hd2⟩ := hcon
      exact hc ⟨hd1, by omega⟩

/-- Appending one block of height `length l` preserves the
height-equals-position property. -/
theorem heightsOk_append (l : List Block) (b : Block)
    (hl : ∀ (i : Nat) (x : Block), l.get? i = some x → x.height = (i : Int))
    (hb : b.height = (l.length : Int)) :
    ∀ (i : Nat) (x : Block), (l ++ [b]).get? i = some x → x.height = (i : Int) := by
  intro i x hx
  rw [List.get?_eq_getElem?] at hx
  rcases Nat.lt_trichotomy i l.length with hi | hi | hi
  · rw [List.getElem?_append_left hi] at hx
    exact hl i x (by rw [List.get?_eq_getElem?]; exact hx)
  · subst hi
    rw [List.getElem?_concat_length] at hx
    injection hx with hx
    rw [← hx]
    exact hb
  · have hnone : (l ++ [b])[i]? = none := by
      rw [List.getElem?_eq_none]
      simp only [List.length_append, List.length_cons, List.length_nil]
      omega
    rw [hnone] at hx
    cases hx

/-- `_addBlock` preserves the ledger invariant. -/
theorem wf_addBlock (env : Env) (now : Int) (c : Chain) (body : String)
    (hwf : WF c) : WF (_addBlock env now c body).1 := by
  obtain ⟨h0, hlen, hpos⟩ := hwf
  refine ⟨?_, ?_, ?_⟩
  · show (0 : Int) ≤ c.height + 1
    omega
  · show (c.chain ++ [_]).length = (c.height + 1).toNat + 1
    rw [List.length_append, hlen]
    simp only [List.length_cons, List.length_nil]
    omega
  · exact heightsOk_append c.chain _ hpos
      (by show c.height + 1 = (c.chain.length : Int); rw [hlen]; push_cast; omega)

/-- The initialized ledger is the genesis block alone, at height 0. -/
theorem initializedChain_eq (env : Env) (now : Int) :
    initializedChain env now =
      { chain := [(_addBlock env now newBlockchainSync (encodeData "Genesis Block")).2],
        height := 0 } := rfl

/-- The initialized ledger satisfies the invariant. -/
theorem wf_init (env : Env) (now : Int) : WF (initializedChain env now) := by
  rw [initializedChain_eq]
  refine ⟨le_refl 0, rfl, ?_⟩
  intro i x hx
  match i, hx with
  | 0, hx =>
    injection hx with hx
    rw [← hx]
    rfl
  | i + 1, hx => exact absurd hx (by simp)

/-- Every reachable ledger state satisfies the invariant. -/
theorem reachable_wf {env : Env} {c : Chain} (hr : Reachable env c) : WF c := by
  induction hr with
  | init now => exact wf_init env now
  | submit c now address message signature star _ ih =>
    exact wf_addBlock env now c (encodeData message) ih

/-- `findSome?` over a list on which the chooser always declines is `none`. -/
theorem findSome?_none {α β : Type} (f : α → Option β) :
    ∀ (l : List α), (∀ x ∈ l, f x = none) → l.findSome? f = none := by
  intro l
  induction l with
  | nil => intro _; rfl
  | cons a t ih =>
    intro h
    rw [List.findSome?_cons, h a (List.mem_cons_self a t)]
    exact ih (fun x hx => h x (List.mem_cons_of_mem a hx))

/-- When no stored block carries the sought hash, the scan inside
`getBlockByHash` finds nothing. -/
theorem hashScan_none (c : Chain) (hash : String) (hwf : WF c)
    (hno : c.chain.all (fun b => b.hash != hash) = true) :
    hashScan c hash = none := by
  have hno' : ∀ b ∈ c.chain, (b.hash == hash) = false := by
    intro b hb
    exact beq_eq_false_iff_ne.mpr (bne_iff_ne.mp (List.all_eq_true.mp hno b hb))
  unfold hashScan
  apply findSome?_none
  intro i _
  rw [getBlockByHeight_wf c hwf (Int.ofNat i)]
  by_cases hc : 0 ≤ (Int.ofNat i) ∧ (Int.ofNat i) ≤ c.height
  · rw [if_pos hc]
    cases hg : c.chain.get? (Int.ofNat i).toNat with
    | none => rfl
    | some b =>
      have hf := hno' b (List.get?_mem hg)
      simp [hf]
  · rw [if_neg hc]

/-- C1. The claim says a submission whose signature the verifier rejects
fails with InvalidSignature and leaves the chain unchanged. On the code it
does not: `submitStar` discards the boolean returned by
`bitcoinMessage.verify`, so under the always-rejecting verifier the
submission still resolves (with no value), the block is still appended, and
the height still grows by one. -/
theorem C1_invalid_signature_still_appends :
    (submitStar envF 100 cInitF "addr1" "addr1:100:starRegistry" "wrongSig" "star1").settled
        = SettleOutcome.resolved none ∧
    (submitStar envF 100 cInitF "addr1" "addr1:100:starRegistry" "wrongSig" "star1").newChain.height
        = cInitF.height + 1 ∧
    (submitStar envF 100 cInitF "addr1" "addr1:100:starRegistry" "wrongSig" "star1").newChain.chain.length
        = cInitF.chain.length + 1 := by
  decide

/-- C2. The claim says an expired submission (`now - embedded_time > 300`)
fails with ExpiredChallenge before the verifier is invoked and before any
append. On the code, at embedded time 100 and clock 401, `reject()` is
indeed called — with no reason — but the `if` does not return: the verifier
is still invoked, the block is still appended, and the height still grows by
one. -/
theorem C2_expired_challenge_still_appends :
    (submitStar envT 401 cInit "addr1" "addr1:100:starRegistry" "sig1" "star1").settled
        = SettleOutcome.rejected none ∧
    (submitStar envT 401 cInit "addr1" "addr1:100:starRegistry" "sig1" "star1").verifierInvoked
        = true ∧
    (submitStar envT 401 cInit "addr1" "addr1:100:starRegistry" "sig1" "star1").newChain.height
        = cInit.height + 1 ∧
    (submitStar envT 401 cInit "addr1" "addr1:100:starRegistry" "sig1" "star1").newChain.chain.length
        = cInit.chain.length + 1 := by
  decide

/-- C3. The claim says every appended block stores as `previousBlockHash`
exactly the hash of its predecessor. On the code this fails at every height
`h > 0`: `_addBlock` reads `.hash` off the Promise object returned by
`getBlockByHeight`, so the field is always `undefined`. On the two-block
chain the linkage condition at height 1 is violated: block 1 stores
`undefined` while block 0 stores a genuine hash string. -/
theorem C3_previous_hash_broken :
    linkIntact cTwo 1 = false ∧
    (cTwo.chain.get? 1).map Block.previousBlockHash = some none ∧
    (cTwo.chain.get? 0).map Block.hash
        = some "sha256:0data:Genesis Block50undefined" := by
  decide

/-- C4. The claim says `validate()` scans every block and returns the
complete issue list, empty on consistent chains. On the code,
`validateChain` awaits `this.getBlockHeight()` — a method that does not
exist — so a TypeError is thrown inside the async executor, where it is
swallowed; moreover no path in the method ever calls resolve or reject. The
returned promise never settles, on the consistent one-block chain as on the
two-block chain, and no issue list is ever produced. -/
theorem C4_validateChain_never_settles :
    validateChain cInit = SettleOutcome.pending ∧
    validateChain cTwo = SettleOutcome.pending :=
  ⟨rfl, rfl⟩

/-- C5. The claim says a correctly signed, unexpired submission resolves
with the newly appended sealed Block. On the code, with the accepting
verifier at clock 100 against the challenge stamped 100, the height does
grow by exactly one — but the promise is settled by a bare `resolve()`, so
the caller receives `undefined`, not the appended block. -/
theorem C5_submit_resolves_undefined :
    (submitStar envT 100 cInit "addr1" "addr1:100:starRegistry" "sig1" "star1").newChain.height
        = cInit.height + 1 ∧
    (submitStar envT 100 cInit "addr1" "addr1:100:starRegistry" "sig1" "star1").newChain.chain.length
        = cInit.chain.length + 1 ∧
    (submitStar envT 100 cInit "addr1" "addr1:100:starRegistry" "sig1" "star1").settled
        = SettleOutcome.resolved none := by
  decide

/-- C6. The claim says `stars_by_address(A)` scans heights 0 through
`height()` and returns the matching decoded star records in height order.
On the code the method cannot return anything: its executor immediately
reads the undeclared identifier `hash`, so the promise rejects with a
ReferenceError for every ledger state and every address — here shown on the
two-block chain for the very address that submitted a star. -/
theorem C6_getStars_always_rejects :
    getStarsByWalletAddress cTwo "addr1"
        = SettleOutcome.rejected (some (JsError.referenceError "hash")) :=
  rfl

/-- C7 counterexample. The claim says `height()` equals 0 — never the `-1`
sentinel or an empty chain — immediately after construction. The observable
state when the constructor returns (initialization being an unawaited async
call that has not yet mutated anything) is height `-1` with an empty chain. -/
theorem C7_counterexample :
    newBlockchainSync.height = -1 ∧
    newBlockchainSync.chain = [] ∧
    (newBlockchainSync.height == 0) = false := by
  decide

/-- C7 (amended). The genesis block is created exactly once at ledger
initialization, but initialization is asynchronous: immediately after the
constructor returns the chain is still empty with height `-1`; once the
initialization completes, the height is 0, the chain holds exactly one
block, that block carries the fixed genesis payload, and re-running
`initializeChain` on the initialized ledger changes nothing. -/
theorem C7_genesis_after_initialization (env : Env) (now : Int) :
    (initializedChain env now).height = 0 ∧
    (initializedChain env now).chain.length = 1 ∧
    ((initializedChain env now).chain.get? 0).map Block.body
        = some (encodeData "Genesis Block") ∧
    initializeChain env now (initializedChain env now) = initializedChain env now ∧
    newBlockchainSync.height = -1 ∧
    newBlockchainSync.chain.length = 0 :=
  ⟨rfl, rfl, rfl, rfl, rfl, rfl⟩

/-- C7 witness: the amended statement at the concrete test environment and
clock 50. -/
theorem C7_witness :
    (initializedChain envT 50).height = 0 ∧
    (initializedChain envT 50).chain.length = 1 ∧
    ((initializedChain envT 50).chain.get? 0).map Block.body
        = some (encodeData "Genesis Block") ∧
    initializeChain envT 50 (initializedChain envT 50) = initializedChain envT 50 ∧
    newBlockchainSync.height = -1 ∧
    newBlockchainSync.chain.length = 0 :=
  C7_genesis_after_initialization envT 50

/-- C8. On every reachable ledger state, `getBlockByHeight h` resolves with
the block stored at position `h` of the chain array when `0 ≤ h ≤ height()`
and resolves with `null` (absent, not an error) for every out-of-range `h`;
the chain has exactly `height() + 1` blocks, so the in-range positional
lookup always finds a block; in particular `getBlockByHeight height()` is
the most recently appended block (the last of the array) and
`getBlockByHeight (height() + 1)` is absent. -/
theorem C8_getBlockByHeight_positional (env : Env) (c : Chain)
    (hr : Reachable env c) (h : Int) :
    getBlockByHeight c h =
      (if 0 ≤ h ∧ h ≤ c.height then c.chain.get? h.toNat else none) ∧
    c.chain.length = c.height.toNat + 1 ∧
    getBlockByHeight c c.height = c.chain.getLast? ∧
    getBlockByHeight c (c.height + 1) = none := by
  obtain ⟨h0, hlen, hpos⟩ := reachable_wf hr
  refine ⟨getBlockByHeight_wf c ⟨h0, hlen, hpos⟩ h, hlen, ?_, ?_⟩
  · rw [getBlockByHeight_wf c ⟨h0, hlen, hpos⟩ c.height,
      if_pos ⟨h0, le_refl c.height⟩, List.get?_eq_getElem?,
      List.getLast?_eq_getElem?, hlen]
    simp
  · rw [getBlockByHeight_wf c ⟨h0, hlen, hpos⟩ (c.height + 1), if_neg (by omega)]

/-- C8 witness: the statement applied to the freshly initialized ledger at
height 0. -/
theorem C8_witness :
    getBlockByHeight cInit 0 = cInit.chain.get? 0 ∧
    getBlockByHeight cInit cInit.height = cInit.chain.getLast? ∧
    getBlockByHeight cInit (cInit.height + 1) = none := by
  have h := C8_getBlockByHeight_positional envT cInit (Reachable.init 50) 0
  exact ⟨h.1.trans (by decide), h.2.2.1, h.2.2.2⟩

/-- C9. The issued challenge message is exactly
`address || ":" || now_seconds || ":" || starRegistry`, the formula the spec
gives (with the fixed tag `starRegistry`); the issuer is a pure function of
the address and the clock reading — it touches no ledger state — so
re-issuing with the same address and clock reading yields the identical
message. -/
theorem C9_issue_challenge_formula (address : String) (now : Int) :
    requestMessageOwnershipVerification address now
        = spec_issue_challenge address now ∧
    requestMessageOwnershipVerification address now
        = address ++ ":" ++ toString now ++ ":starRegistry" ∧
    requestMessageOwnershipVerification address now
        = requestMessageOwnershipVerification address now :=
  ⟨rfl, rfl, rfl⟩

/-- C9 witness: the statement at a concrete address and clock reading. -/
theorem C9_witness :
    requestMessageOwnershipVerification "addr1" 100
        = spec_issue_challenge "addr1" 100 ∧
    requestMessageOwnershipVerification "addr1" 100
        = "addr1" ++ ":" ++ toString (100 : Int) ++ ":starRegistry" :=
  ⟨(C9_issue_challenge_formula "addr1" 100).1,
   (C9_issue_challenge_formula "addr1" 100).2.1⟩

/-- C10. On every reachable ledger state, querying `getBlockByHash` with a
hash that matches no stored block produces no result at all: the loop ends
without any call to resolve or reject, so the promise never settles — it
neither resolves with an absent value nor rejects with an error. -/
theorem C10_getBlockByHash_miss_never_settles (env : Env) (c : Chain)
    (hr : Reachable env c) (hash : String)
    (hno : c.chain.all (fun b => b.hash != hash) = true) :
    getBlockByHash c hash = SettleOutcome.pending := by
  unfold getBlockByHash
  rw [hashScan_none c hash (reachable_wf hr) hno]

/-- C10 witness: a hash matching no block of the initialized ledger leaves
the lookup unsettled. -/
theorem C10_witness :
    cInit.chain.all (fun b => b.hash != "nosuch") = true ∧
    getBlockByHash cInit "nosuch" = SettleOutcome.pending :=
  ⟨by decide,
   C10_getBlockByHash_miss_never_settles envT cInit (Reachable.init 50) "nosuch"
     (by decide)⟩

end StarNotary
